import Mathlib

/-!
Verification development for the recipe-generator repository (src/receipe.py).

The embedding models, from the source:
* the JSON values the program exchanges (the fragment used by the program's
  schema: strings, booleans, null, arrays, objects) together with a canonical
  serializer and a parser standing for Python's json.loads on such texts;
* the Recipe dataclass and construction via Recipe(**d), which requires the
  keyword set to be exactly the nine declared fields and performs no type
  checking of the values;
* get_recipe_from_ai response handling (lines 60-73): strip, find first
  brace, rfind last brace, guard on -1, slice, json.loads, Recipe(**d),
  with every raised exception collapsing to a displayed error and None;
* get_cooking_assistance (lines 75-101): the grounding-context f-string,
  the try/except that converts any transport error into an apology string,
  and the .strip() applied to a successful reply.
-/

/-- JSON values, restricted to the fragment the program's schema uses
(strings, booleans, null, arrays, objects). -/
inductive Json where
  | str (s : String)
  | bool (b : Bool)
  | null
  | arr (elems : List Json)
  | obj (members : List (String × Json))

/-- The Recipe dataclass of src/receipe.py lines 14-24.  Python dataclasses do
not validate the values passed for the annotated fields, so each field holds
whatever decoded JSON value was supplied for its keyword. -/
structure Recipe where
  title : Json
  cooking_time : Json
  difficulty : Json
  ingredients : Json
  instructions : Json
  nutrition : Json
  flavor_profile : Json
  garnish_tips : Json
  pairing_suggestions : Json

/-- Characters Python's str.strip removes (ASCII whitespace). -/
def isPySpace (c : Char) : Bool :=
  c == ' ' || c == '\t' || c == '\n' || c == '\x0d' || c == '\x0b' || c == '\x0c'

/-- Python str.strip on the character list of a string. -/
def pyStrip (l : List Char) : List Char :=
  ((l.dropWhile isPySpace).reverse.dropWhile isPySpace).reverse

/-- Index of the first occurrence of a character, if any. -/
def firstIdx (c : Char) : List Char → Option Nat
  | [] => none
  | a :: t => if a = c then some 0 else (firstIdx c t).map (· + 1)

/-- Python str.find: index of the first occurrence, or -1. -/
def pyFind (c : Char) (l : List Char) : Int :=
  match firstIdx c l with
  | some i => (i : Int)
  | none => -1

/-- Python str.rfind: index of the last occurrence, or -1. -/
def pyRfind (c : Char) (l : List Char) : Int :=
  match firstIdx c l.reverse with
  | some i => ((l.length - 1 - i : Nat) : Int)
  | none => -1

/-- Python slicing text[a:b] for the non-negative indices that reach it in
get_recipe_from_ai (the guard rules out a = -1, and b = rfind + 1 is never
negative). -/
def pySlice (l : List Char) (a b : Int) : List Char :=
  (l.drop a.toNat).take (b.toNat - a.toNat)

/-- Whitespace accepted between JSON tokens by Python's json.loads. -/
def isJsonWs (c : Char) : Bool :=
  c == ' ' || c == '\t' || c == '\n' || c == '\x0d'

/-- Skip inter-token whitespace. -/
def skipWs (l : List Char) : List Char :=
  l.dropWhile isJsonWs

/-- Characters allowed unescaped inside a JSON string: json.loads in its
default strict mode rejects raw control characters below 0x20. -/
def cleanChar (c : Char) : Bool :=
  decide (32 ≤ c.toNat)

/-- Parse the body of a JSON string after the opening quote, returning the
decoded characters and the remaining input.  Handles the escapes the canonical
serializer emits; raw control characters are rejected as json.loads does. -/
def parseStrChars : List Char → Option (List Char × List Char)
  | [] => none
  | c :: r =>
    if c = '\\' then
      match r with
      | [] => none
      | d :: r2 =>
        if d = '"' then (parseStrChars r2).map (fun p => ('"' :: p.1, p.2))
        else if d = '\\' then (parseStrChars r2).map (fun p => ('\\' :: p.1, p.2))
        else none
    else if c = '"' then some ([], r)
    else if c.toNat < 32 then none
    else (parseStrChars r).map (fun p => (c :: p.1, p.2))

/-- Match an exact sequence of characters. -/
def expectChars : List Char → List Char → Option (List Char)
  | [], r => some r
  | c :: t, r =>
    match r with
    | [] => none
    | d :: r2 => if d = c then expectChars t r2 else none

mutual

/-- Recursive-descent parser for one JSON value, with fuel.  Mirrors the
grammar json.loads accepts on the modelled fragment. -/
def parseVal : Nat → List Char → Option (Json × List Char)
  | 0, _ => none
  | Nat.succ fuel, cs =>
    match skipWs cs with
    | [] => none
    | c :: r =>
      if c = '"' then (parseStrChars r).map (fun p => (Json.str (String.mk p.1), p.2))
      else if c = '\x7b' then
        match skipWs r with
        | [] => none
        | d :: r2 =>
          if d = '\x7d' then some (Json.obj [], r2)
          else (parseMembers fuel (skipWs r)).map (fun p => (Json.obj p.1, p.2))
      else if c = '[' then
        match skipWs r with
        | [] => none
        | d :: r2 =>
          if d = ']' then some (Json.arr [], r2)
          else (parseElems fuel (skipWs r)).map (fun p => (Json.arr p.1, p.2))
      else if c = 't' then (expectChars ['r', 'u', 'e'] r).map (fun r2 => (Json.bool true, r2))
      else if c = 'f' then (expectChars ['a', 'l', 's', 'e'] r).map (fun r2 => (Json.bool false, r2))
      else if c = 'n' then (expectChars ['u', 'l', 'l'] r).map (fun r2 => (Json.null, r2))
      else none

/-- Parse one or more comma-separated array elements up to the closing
bracket. -/
def parseElems : Nat → List Char → Option (List Json × List Char)
  | 0, _ => none
  | Nat.succ fuel, cs =>
    match parseVal fuel cs with
    | none => none
    | some (v, r) =>
      match skipWs r with
      | [] => none
      | d :: r2 =>
        if d = ',' then
          match parseElems fuel r2 with
          | none => none
          | some (t, r3) => some (v :: t, r3)
        else if d = ']' then some ([v], r2)
        else none

/-- Parse one or more comma-separated object members up to the closing
brace. -/
def parseMembers : Nat → List Char → Option (List (String × Json) × List Char)
  | 0, _ => none
  | Nat.succ fuel, cs =>
    match skipWs cs with
    | [] => none
    | c :: r =>
      if c = '"' then
        match parseStrChars r with
        | none => none
        | some (k, r1) =>
          match skipWs r1 with
          | [] => none
          | d :: r2 =>
            if d = ':' then
              match parseVal fuel r2 with
              | none => none
              | some (v, r3) =>
                match skipWs r3 with
                | [] => none
                | e :: r4 =>
                  if e = ',' then
                    match parseMembers fuel r4 with
                    | none => none
                    | some (t, r5) => some ((String.mk k, v) :: t, r5)
                  else if e = '\x7d' then some ([(String.mk k, v)], r4)
                  else none
            else none
      else none

end

/-- json.loads on a candidate payload: parse one value and require that only
whitespace remains. -/
def parseJson (cs : List Char) : Option Json :=
  match parseVal (cs.length + 1) cs with
  | some (j, r) => if skipWs r = [] then some j else none
  | none => none

/-- Escape the characters the canonical serializer must escape inside a
JSON string literal. -/
def escChars : List Char → List Char
  | [] => []
  | c :: t =>
    (if c = '"' then ['\\', '"'] else if c = '\\' then ['\\', '\\'] else [c]) ++ escChars t

mutual

/-- Canonical (whitespace-free) serialization of a JSON value; stands for a
well-formed JSON text carrying exactly this value. -/
def serVal : Json → List Char
  | .str s => '"' :: escChars s.data ++ ['"']
  | .bool true => ['t', 'r', 'u', 'e']
  | .bool false => ['f', 'a', 'l', 's', 'e']
  | .null => ['n', 'u', 'l', 'l']
  | .arr l => '[' :: serElems l ++ [']']
  | .obj m => '\x7b' :: serMembers m ++ ['\x7d']

/-- Serialize array elements, comma separated. -/
def serElems : List Json → List Char
  | [] => []
  | [v] => serVal v
  | v :: t => serVal v ++ ',' :: serElems t

/-- Serialize object members, comma separated. -/
def serMembers : List (String × Json) → List Char
  | [] => []
  | [(k, v)] => '"' :: escChars k.data ++ '"' :: ':' :: serVal v
  | (k, v) :: t => ('"' :: escChars k.data ++ '"' :: ':' :: serVal v) ++ ',' :: serMembers t

end

mutual

/-- Structural size used to feed the parser enough fuel. -/
def szV : Json → Nat
  | .str _ => 1
  | .bool _ => 1
  | .null => 1
  | .arr l => szL l + 1
  | .obj m => szM m + 1

/-- Size of a list of elements. -/
def szL : List Json → Nat
  | [] => 0
  | v :: t => szV v + szL t + 1

/-- Size of a list of members. -/
def szM : List (String × Json) → Nat
  | [] => 0
  | (_, v) :: t => szV v + szM t + 1

end

mutual

/-- A JSON value whose strings (keys included) carry no raw control
characters, i.e. one whose serialization is a well-formed JSON text. -/
def cleanV : Json → Bool
  | .str s => s.data.all cleanChar
  | .bool _ => true
  | .null => true
  | .arr l => cleanL l
  | .obj m => cleanM m

/-- Cleanliness for array elements. -/
def cleanL : List Json → Bool
  | [] => true
  | v :: t => cleanV v && cleanL t

/-- Cleanliness for object members. -/
def cleanM : List (String × Json) → Bool
  | [] => true
  | (k, v) :: t => k.data.all cleanChar && cleanV v && cleanM t

end

/-- The nine field names of the Recipe dataclass, in declaration order. -/
def requiredFields : List String :=
  ["title", "cooking_time", "difficulty", "ingredients", "instructions",
   "nutrition", "flavor_profile", "garnish_tips", "pairing_suggestions"]

/-- Keyword-argument check performed by Recipe(**d): the call succeeds exactly
when every required field receives a value and no unexpected keyword is
present.  No type checking of the values takes place. -/
def hasExactRequiredKeys (kvs : List (String × Json)) : Bool :=
  requiredFields.all (fun f => kvs.any (fun kv => kv.1 == f)) &&
    kvs.all (fun kv => requiredFields.contains kv.1)

/-- Value a Python dict built from an association list assigns to a key
(later bindings overwrite earlier ones); .null stands in for the unreachable
missing case. -/
def lookupLast (kvs : List (String × Json)) (k : String) : Json :=
  (kvs.reverse.lookup k).getD .null

/-- Recipe(**recipe_json) from line 67: succeeds only on a dict whose key set
is exactly the nine declared fields, binding each field to the dict's value;
any other decoded value raises and yields no Recipe. -/
def recipeOfJson : Json → Option Recipe
  | .obj kvs =>
    if hasExactRequiredKeys kvs then
      some
        { title := lookupLast kvs "title"
          cooking_time := lookupLast kvs "cooking_time"
          difficulty := lookupLast kvs "difficulty"
          ingredients := lookupLast kvs "ingredients"
          instructions := lookupLast kvs "instructions"
          nutrition := lookupLast kvs "nutrition"
          flavor_profile := lookupLast kvs "flavor_profile"
          garnish_tips := lookupLast kvs "garnish_tips"
          pairing_suggestions := lookupLast kvs "pairing_suggestions" }
    else none
  | _ => none

/-- The distinct exception sources inside the try of get_recipe_from_ai; the
handler collapses them all into a displayed error and a None result. -/
inductive GenError where
  | noValidJson
  | jsonDecode
  | recipeFields
deriving DecidableEq

/-- Lines 63-65: locate the first brace and one past the last brace on the
stripped reply and slice the candidate payload, or take the explicit
ValueError branch. -/
def extractPayload (text : List Char) : Option (List Char) :=
  let startIdx := pyFind '\x7b' text
  let endIdx := pyRfind '\x7d' text + 1
  if startIdx ≠ -1 ∧ endIdx ≠ -1 then some (pySlice text startIdx endIdx) else none

/-- Response handling of get_recipe_from_ai, lines 60-69, with the exception
that each stage would raise made explicit. -/
def decodeReply (reply : String) : Except GenError Recipe :=
  match extractPayload (pyStrip reply.data) with
  | none => .error .noValidJson
  | some payload =>
    match parseJson payload with
    | none => .error .jsonDecode
    | some j =>
      match recipeOfJson j with
      | none => .error .recipeFields
      | some r => .ok r

/-- get_recipe_from_ai as observed by its caller: the completion call either
raises (transport error) or returns a reply text; every exception reaches the
handler at line 71, which displays the error and returns None. -/
def getRecipeFromAi (outcome : Except String String) : Option Recipe :=
  match outcome with
  | .error _ => none
  | .ok reply =>
    match decodeReply reply with
    | .ok r => some r
    | .error _ => none

mutual

/-- Python repr of a decoded JSON value, as used by str() on the non-string
values an f-string may interpolate. -/
def pyReprV : Json → String
  | .str s => "\x27" ++ s ++ "\x27"
  | .bool true => "True"
  | .bool false => "False"
  | .null => "None"
  | .arr l => "[" ++ pyReprL l ++ "]"
  | .obj m => "\x7b" ++ pyReprM m ++ "\x7d"

/-- repr of list elements, comma separated. -/
def pyReprL : List Json → String
  | [] => ""
  | [v] => pyReprV v
  | v :: t => pyReprV v ++ ", " ++ pyReprL t

/-- repr of dict items, comma separated. -/
def pyReprM : List (String × Json) → String
  | [] => ""
  | [(k, v)] => "\x27" ++ k ++ "\x27: " ++ pyReprV v
  | (k, v) :: t => ("\x27" ++ k ++ "\x27: " ++ pyReprV v) ++ ", " ++ pyReprM t

end

/-- Python str() of a decoded JSON value: a string renders as itself, anything
else as its repr. -/
def pyStr : Json → String
  | .str s => s
  | v => pyReprV v

/-- The sequence of strings Python's str.join iterates over for a decoded JSON
value, or none when join raises a TypeError: a list joins its elements when
they are all strings, a string joins its characters, a dict joins its keys,
and booleans and null are not iterable. -/
def seqToJoin : Json → Option (List String)
  | .str s => some (s.data.map (fun c => String.mk [c]))
  | .arr l => l.foldr (fun v acc =>
      match v, acc with
      | .str s, some t => some (s :: t)
      | _, _ => none) (some [])
  | .obj m => some (m.map Prod.fst)
  | _ => none

/-- Text of the grounding f-string of get_cooking_assistance before the
title interpolation. -/
def assistPart1 : String :=
  "You are an expert Indian chef assistant helping with cooking queries. \n    You have access to this recipe:\n    Title: "

/-- Text between the title and the joined ingredient list. -/
def assistPart2 : String := "\n    Ingredients: "

/-- Text between the ingredient list and the cooking-time facet. -/
def assistPart3 : String := "\n    Cooking Time: "

/-- Text between the cooking-time facet and the difficulty facet. -/
def assistPart4 : String := " minutes\n    Difficulty: "

/-- Text after the difficulty facet. -/
def assistPart5 : String :=
  "\n    \n    Provide clear, specific answers about cooking techniques, ingredient substitutions, \n    timing adjustments, or any other cooking-related questions for this recipe.\n    Keep responses concise and practical."

/-- The system_content f-string of get_cooking_assistance (lines 76-85).
It interpolates the held recipe's title and joined ingredient list, but the
cooking time and difficulty FACETS passed to the function; the join raises
(none) when the recipe's ingredients value cannot be joined. -/
def buildAssistContext (recipe : Recipe) (cookingTime : Nat) (difficulty : String) :
    Option String :=
  match seqToJoin recipe.ingredients with
  | none => none
  | some items =>
    some (assistPart1 ++ pyStr recipe.title ++ assistPart2 ++
      String.intercalate ", " items ++ assistPart3 ++ toString cookingTime ++
      assistPart4 ++ difficulty ++ assistPart5)

/-- The apology text of the except branch at line 101, up to the interpolated
exception message. -/
def apologyPrefix : String := "Sorry, I couldn\x27t process your question: "

/-- get_cooking_assistance (lines 75-101): builds the grounding context (an
exception there propagates: none), then inside the try either strips the
reply or converts the raised transport error into the apology text.  The
cuisine_type parameter is accepted and unused, as in the source. -/
def getCookingAssistance (query : String) (recipe : Recipe) (cuisineType : String)
    (cookingTime : Nat) (difficulty : String) (outcome : Except String String) :
    Option String :=
  match buildAssistContext recipe cookingTime difficulty with
  | none => none
  | some _ =>
    some (match outcome with
      | .ok reply => String.mk (pyStrip reply.data)
      | .error e => apologyPrefix ++ e)

/-- get_cooking_assistance with the recipe object it leaves behind made
explicit: the body only reads recipe.title and recipe.ingredients and contains
no assignment to the recipe, so the state after the call is the recipe that
was passed in. -/
def getCookingAssistanceS (query : String) (recipe : Recipe) (cuisineType : String)
    (cookingTime : Nat) (difficulty : String) (outcome : Except String String) :
    Option String × Recipe :=
  (getCookingAssistance query recipe cuisineType cookingTime difficulty outcome, recipe)

/-- Repeatedly ask questions against the same held recipe, threading the
recipe state through the calls; returns the recipe left after the last
call. -/
def runAssistantSession (cuisineType : String) (cookingTime : Nat) (difficulty : String)
    (recipe : Recipe) (turns : List (String × Except String String)) : Recipe :=
  turns.foldl
    (fun cur turn => (getCookingAssistanceS turn.1 cur cuisineType cookingTime difficulty turn.2).2)
    recipe

/-! ### Helper lemmas about stripping, locating braces and slicing -/

theorem mem_of_mem_dropWhileChar {f : Char → Bool} {l : List Char} {a : Char}
    (h : a ∈ l.dropWhile f) : a ∈ l := by
  induction l with
  | nil => simpa using h
  | cons b t ih =>
    by_cases hb : f b
    · rw [List.dropWhile_cons_of_pos hb] at h
      exact List.mem_cons_of_mem _ (ih h)
    · rw [List.dropWhile_cons_of_neg hb] at h
      exact h

theorem dropWhileChar_append_cons (f : Char → Bool) (p : List Char) (c : Char)
    (s : List Char) (hc : f c = false) :
    (p ++ c :: s).dropWhile f = p.dropWhile f ++ c :: s := by
  induction p with
  | nil =>
    simp only [List.nil_append, List.dropWhile_nil]
    rw [List.dropWhile_cons_of_neg (by simp [hc])]
  | cons a t ih =>
    by_cases ha : f a
    · simpa [List.dropWhile_cons_of_pos ha] using ih
    · simp [List.dropWhile_cons_of_neg ha]

theorem pyStrip_decomp (p s q : List Char) (c d : Char) (t1 t2 : List Char)
    (hhead : s = c :: t1) (hc : isPySpace c = false)
    (hlast : s = t2 ++ [d]) (hd : isPySpace d = false) :
    pyStrip (p ++ s ++ q) =
      p.dropWhile isPySpace ++ s ++ (q.reverse.dropWhile isPySpace).reverse := by
  unfold pyStrip
  have h1 : (p ++ s ++ q).dropWhile isPySpace = p.dropWhile isPySpace ++ (s ++ q) := by
    rw [show p ++ s ++ q = p ++ c :: (t1 ++ q) by simp [hhead]]
    rw [dropWhileChar_append_cons _ _ _ _ hc]
    simp [hhead]
  rw [h1]
  have h2 : (p.dropWhile isPySpace ++ (s ++ q)).reverse =
      q.reverse ++ d :: (t2.reverse ++ (p.dropWhile isPySpace).reverse) := by
    simp [hlast]
  rw [h2, dropWhileChar_append_cons _ _ _ _ hd]
  simp [hlast]

theorem firstIdx_append_cons (c : Char) (p s : List Char) (h : c ∉ p) :
    firstIdx c (p ++ c :: s) = some p.length := by
  induction p with
  | nil => simp [firstIdx]
  | cons a t ih =>
    have ha : a ≠ c := by
      intro hac
      exact h (by simp [hac])
    have ht : c ∉ t := fun hm => h (List.mem_cons_of_mem _ hm)
    simp [firstIdx, ha, ih ht]

theorem pyFind_append_cons (c : Char) (p s : List Char) (h : c ∉ p) :
    pyFind c (p ++ c :: s) = (p.length : Int) := by
  unfold pyFind
  rw [firstIdx_append_cons c p s h]

theorem pyRfind_append_cons (c : Char) (pre post : List Char) (h : c ∉ post) :
    pyRfind c (pre ++ c :: post) = (pre.length : Int) := by
  unfold pyRfind
  have hrev : (pre ++ c :: post).reverse = post.reverse ++ c :: pre.reverse := by simp
  have hmem : c ∉ post.reverse := by simpa using h
  rw [hrev, firstIdx_append_cons c post.reverse pre.reverse hmem]
  have hlen : (pre ++ c :: post).length - 1 - post.reverse.length = pre.length := by
    simp only [List.length_append, List.length_cons, List.length_reverse]
    omega
  simp only [List.length_reverse] at hlen ⊢
  rw [show (pre ++ c :: post).length = pre.length + (post.length + 1) by simp]
  congr 1
  omega

theorem extract_wrapped (p mid q : List Char)
    (hp : '\x7b' ∉ p) (hq : '\x7d' ∉ q) :
    extractPayload (pyStrip (p ++ ('\x7b' :: mid ++ ['\x7d']) ++ q)) =
      some ('\x7b' :: mid ++ ['\x7d']) := by
  have hstrip := pyStrip_decomp p ('\x7b' :: mid ++ ['\x7d']) q '\x7b' '\x7d'
    (mid ++ ['\x7d']) ('\x7b' :: mid) rfl (by decide) (by simp) (by decide)
  rw [hstrip]
  set p1 := p.dropWhile isPySpace with hp1
  set q1 := (q.reverse.dropWhile isPySpace).reverse with hq1
  have hp1m : '\x7b' ∉ p1 := fun hm => hp (mem_of_mem_dropWhileChar hm)
  have hq1m : '\x7d' ∉ q1 := by
    intro hm
    rw [hq1] at hm
    rw [List.mem_reverse] at hm
    have := mem_of_mem_dropWhileChar hm
    rw [List.mem_reverse] at this
    exact hq this
  unfold extractPayload
  have hfind : pyFind '\x7b' (p1 ++ ('\x7b' :: mid ++ ['\x7d']) ++ q1) = (p1.length : Int) := by
    rw [show p1 ++ ('\x7b' :: mid ++ ['\x7d']) ++ q1 = p1 ++ '\x7b' :: (mid ++ ['\x7d'] ++ q1) by simp]
    exact pyFind_append_cons _ _ _ hp1m
  have hrfind : pyRfind '\x7d' (p1 ++ ('\x7b' :: mid ++ ['\x7d']) ++ q1) =
      ((p1.length + (mid.length + 1) : Nat) : Int) := by
    rw [show p1 ++ ('\x7b' :: mid ++ ['\x7d']) ++ q1 = (p1 ++ '\x7b' :: mid) ++ '\x7d' :: q1 by simp]
    rw [pyRfind_append_cons _ _ _ hq1m]
    simp
  rw [hfind, hrfind]
  have hguard : ((p1.length : Int) ≠ -1 ∧ ((p1.length + (mid.length + 1) : Nat) : Int) + 1 ≠ -1) := by
    constructor <;> omega
  rw [if_pos hguard]
  unfold pySlice
  have htoNat1 : ((p1.length : Int)).toNat = p1.length := by omega
  have htoNat2 : (((p1.length + (mid.length + 1) : Nat) : Int) + 1).toNat = p1.length + (mid.length + 2) := by omega
  rw [htoNat1, htoNat2]
  have hdrop : (p1 ++ ('\x7b' :: mid ++ ['\x7d']) ++ q1).drop p1.length =
      ('\x7b' :: mid ++ ['\x7d']) ++ q1 := by
    rw [List.append_assoc]
    exact List.drop_left p1 _
  rw [hdrop]
  have hlen : ('\x7b' :: mid ++ ['\x7d']).length = mid.length + 2 := by simp
  rw [show p1.length + (mid.length + 2) - p1.length = mid.length + 2 by omega]
  rw [← hlen, List.take_left]

/-! ### Round trip: parsing a serialized JSON value recovers it -/

theorem strMk_data (s : String) : String.mk s.data = s := rfl

theorem skipWs_cons (c : Char) (r : List Char) (h : isJsonWs c = false) :
    skipWs (c :: r) = c :: r := by
  unfold skipWs
  rw [List.dropWhile_cons_of_neg (by simp [h])]

theorem parseStrChars_esc (cs rest : List Char) (h : cs.all cleanChar = true) :
    parseStrChars (escChars cs ++ '"' :: rest) = some (cs, rest) := by
  induction cs with
  | nil =>
    rw [show escChars [] ++ '"' :: rest = '"' :: rest by rfl]
    rw [parseStrChars.eq_def]
    rfl
  | cons c t ih =>
    rw [List.all_cons, Bool.and_eq_true] at h
    obtain ⟨hc, ht⟩ := h
    by_cases h1 : c = '"'
    · subst h1
      rw [show escChars ('"' :: t) ++ '"' :: rest = '\\' :: '"' :: (escChars t ++ '"' :: rest) by
        simp [escChars]]
      rw [parseStrChars.eq_def]
      dsimp only
      rw [if_pos rfl, if_pos rfl, ih ht]
      rfl
    · by_cases h2 : c = '\\'
      · subst h2
        rw [show escChars ('\\' :: t) ++ '"' :: rest = '\\' :: '\\' :: (escChars t ++ '"' :: rest) by
          simp [escChars]]
        rw [parseStrChars.eq_def]
        dsimp only
        rw [if_pos rfl, if_neg (by decide), if_pos rfl, ih ht]
        rfl
      · have hctrl : ¬ c.toNat < 32 := by
          have : 32 ≤ c.toNat := by simpa [cleanChar] using hc
          omega
        rw [show escChars (c :: t) ++ '"' :: rest = c :: (escChars t ++ '"' :: rest) by
          simp [escChars, h1, h2]]
        rw [parseStrChars.eq_def]
        dsimp only
        rw [if_neg h2, if_neg h1, if_neg hctrl, ih ht]
        rfl

theorem serVal_head (v : Json) :
    ∃ c r, serVal v = c :: r ∧ isJsonWs c = false ∧ c ≠ ']' ∧ c ≠ '\x7d' ∧ c ≠ ',' := by
  cases v with
  | str s =>
    exact ⟨'"', escChars s.data ++ ['"'], by simp [serVal], by decide, by decide, by decide,
      by decide⟩
  | bool b =>
    cases b with
    | false =>
      exact ⟨'f', ['a', 'l', 's', 'e'], by simp [serVal], by decide, by decide, by decide,
        by decide⟩
    | true =>
      exact ⟨'t', ['r', 'u', 'e'], by simp [serVal], by decide, by decide, by decide, by decide⟩
  | null => exact ⟨'n', ['u', 'l', 'l'], by simp [serVal], by decide, by decide, by decide,
      by decide⟩
  | arr l => exact ⟨'[', serElems l ++ [']'], by simp [serVal], by decide, by decide, by decide,
      by decide⟩
  | obj m => exact ⟨'\x7b', serMembers m ++ ['\x7d'], by simp [serVal], by decide, by decide,
      by decide, by decide⟩

theorem serElems_cons_decomp (v : Json) (t : List Json) :
    ∃ w, serElems (v :: t) = serVal v ++ w := by
  cases t with
  | nil => exact ⟨[], by simp [serElems]⟩
  | cons u t2 => exact ⟨',' :: serElems (u :: t2), by simp [serElems]⟩

theorem parse_ser (fuel : Nat) :
    (∀ j rest, szV j < fuel → cleanV j = true →
      parseVal fuel (serVal j ++ rest) = some (j, rest)) ∧
    (∀ l rest, l ≠ [] → szL l < fuel → cleanL l = true →
      parseElems fuel (serElems l ++ ']' :: rest) = some (l, rest)) ∧
    (∀ m rest, m ≠ [] → szM m < fuel → cleanM m = true →
      parseMembers fuel (serMembers m ++ '\x7d' :: rest) = some (m, rest)) := by
  induction fuel with
  | zero =>
    refine ⟨fun j rest hsz _ => absurd hsz (by omega),
      fun l rest _ hsz _ => absurd hsz (by omega),
      fun m rest _ hsz _ => absurd hsz (by omega)⟩
  | succ fuel ih =>
    obtain ⟨ihV, ihE, ihM⟩ := ih
    refine ⟨?_, ?_, ?_⟩
    · intro j rest hsz hcl
      cases j with
      | str s =>
        rw [show serVal (Json.str s) ++ rest = '"' :: (escChars s.data ++ '"' :: rest) by
          simp [serVal]]
        rw [parseVal.eq_def]
        dsimp only
        rw [skipWs_cons _ _ (by decide)]
        dsimp only
        rw [if_pos rfl, parseStrChars_esc _ _ (by simpa [cleanV] using hcl)]
        simp [strMk_data]
      | bool b =>
        cases b with
        | true =>
          rw [show serVal (Json.bool true) ++ rest = 't' :: 'r' :: 'u' :: 'e' :: rest by
            simp [serVal]]
          rw [parseVal.eq_def]
          dsimp only
          rw [skipWs_cons _ _ (by decide)]
          dsimp only
          rw [if_neg (by decide), if_neg (by decide), if_neg (by decide), if_pos rfl]
          rfl
        | false =>
          rw [show serVal (Json.bool false) ++ rest = 'f' :: 'a' :: 'l' :: 's' :: 'e' :: rest by
            simp [serVal]]
          rw [parseVal.eq_def]
          dsimp only
          rw [skipWs_cons _ _ (by decide)]
          dsimp only
          rw [if_neg (by decide), if_neg (by decide), if_neg (by decide), if_neg (by decide),
            if_pos rfl]
          rfl
      | null =>
        rw [show serVal Json.null ++ rest = 'n' :: 'u' :: 'l' :: 'l' :: rest by simp [serVal]]
        rw [parseVal.eq_def]
        dsimp only
        rw [skipWs_cons _ _ (by decide)]
        dsimp only
        rw [if_neg (by decide), if_neg (by decide), if_neg (by decide), if_neg (by decide),
          if_neg (by decide), if_pos rfl]
        rfl
      | arr l =>
        cases l with
        | nil =>
          rw [show serVal (Json.arr []) ++ rest = '[' :: (']' :: rest) by simp [serVal, serElems]]
          rw [parseVal.eq_def]
          dsimp only
          rw [skipWs_cons _ _ (by decide)]
          dsimp only
          rw [if_neg (by decide), if_neg (by decide), if_pos rfl]
          rw [skipWs_cons _ _ (by decide)]
          dsimp only
          rw [if_pos rfl]
        | cons v t =>
          obtain ⟨w, hw⟩ := serElems_cons_decomp v t
          obtain ⟨c0, r0, hsv, hws, hbr, hbc, hcm⟩ := serVal_head v
          have hse : serElems (v :: t) ++ ']' :: rest = c0 :: (r0 ++ (w ++ ']' :: rest)) := by
            rw [hw, hsv]
            simp
          rw [show serVal (Json.arr (v :: t)) ++ rest = '[' :: (serElems (v :: t) ++ ']' :: rest) by
            simp [serVal]]
          rw [parseVal.eq_def]
          dsimp only
          rw [skipWs_cons _ _ (by decide)]
          dsimp only
          rw [if_neg (by decide), if_neg (by decide), if_pos rfl]
          rw [hse, skipWs_cons _ _ hws]
          dsimp only
          rw [if_neg hbr, ← hse]
          rw [ihE (v :: t) rest (by simp)
            (by simp only [szV] at hsz; omega)
            (by simpa [cleanV] using hcl)]
          rfl
      | obj m =>
        cases m with
        | nil =>
          rw [show serVal (Json.obj []) ++ rest = '\x7b' :: ('\x7d' :: rest) by
            simp [serVal, serMembers]]
          rw [parseVal.eq_def]
          dsimp only
          rw [skipWs_cons _ _ (by decide)]
          dsimp only
          rw [if_neg (by decide), if_pos rfl]
          rw [skipWs_cons _ _ (by decide)]
          dsimp only
          rw [if_pos rfl]
        | cons kv t =>
          obtain ⟨k, v⟩ := kv
          have hse : ∃ w, serMembers ((k, v) :: t) ++ '\x7d' :: rest =
              '"' :: (escChars k.data ++ '"' :: (':' :: (serVal v ++ w))) ∧
              (serMembers ((k, v) :: t) ++ '\x7d' :: rest = serMembers ((k, v) :: t) ++ '\x7d' :: rest) := by
            cases t with
            | nil => exact ⟨'\x7d' :: rest, by simp [serMembers], rfl⟩
            | cons u t2 => exact ⟨',' :: (serMembers (u :: t2) ++ '\x7d' :: rest),
                by simp [serMembers], rfl⟩
          obtain ⟨w, hw, -⟩ := hse
          rw [show serVal (Json.obj ((k, v) :: t)) ++ rest =
              '\x7b' :: (serMembers ((k, v) :: t) ++ '\x7d' :: rest) by simp [serVal]]
          rw [parseVal.eq_def]
          dsimp only
          rw [skipWs_cons _ _ (by decide)]
          dsimp only
          rw [if_neg (by decide), if_pos rfl]
          rw [hw, skipWs_cons _ _ (by decide)]
          dsimp only
          rw [if_neg (by decide), ← hw]
          rw [ihM ((k, v) :: t) rest (by simp)
            (by simp only [szV] at hsz; omega)
            (by simpa [cleanV] using hcl)]
          rfl
    · intro l rest hl hsz hcl
      cases l with
      | nil => exact absurd rfl hl
      | cons v t =>
        simp only [szL] at hsz
        simp only [cleanL, Bool.and_eq_true] at hcl
        rw [parseElems.eq_def]
        dsimp only
        cases t with
        | nil =>
          rw [show serElems [v] ++ ']' :: rest = serVal v ++ ']' :: rest by simp [serElems]]
          rw [ihV v (']' :: rest) (by omega) hcl.1]
          dsimp only
          rw [skipWs_cons _ _ (by decide)]
          dsimp only
          rw [if_neg (by decide), if_pos rfl]
        | cons u t2 =>
          rw [show serElems (v :: u :: t2) ++ ']' :: rest =
              serVal v ++ (',' :: (serElems (u :: t2) ++ ']' :: rest)) by simp [serElems]]
          rw [ihV v _ (by omega) hcl.1]
          dsimp only
          rw [skipWs_cons _ _ (by decide)]
          dsimp only
          rw [if_pos rfl]
          rw [ihE (u :: t2) rest (by simp) (by simp only [szL] at hsz ⊢; omega) hcl.2]
    · intro m rest hm hsz hcl
      cases m with
      | nil => exact absurd rfl hm
      | cons kv t =>
        obtain ⟨k, v⟩ := kv
        simp only [szM] at hsz
        simp only [cleanM, Bool.and_eq_true] at hcl
        rw [parseMembers.eq_def]
        dsimp only
        cases t with
        | nil =>
          rw [show serMembers [(k, v)] ++ '\x7d' :: rest =
              '"' :: (escChars k.data ++ '"' :: (':' :: (serVal v ++ '\x7d' :: rest))) by
            simp [serMembers]]
          rw [skipWs_cons _ _ (by decide)]
          dsimp only
          rw [if_pos rfl, parseStrChars_esc _ _ hcl.1.1]
          dsimp only
          rw [skipWs_cons _ _ (by decide)]
          dsimp only
          rw [if_pos rfl]
          rw [ihV v _ (by omega) hcl.1.2]
          dsimp only
          rw [skipWs_cons _ _ (by decide)]
          dsimp only
          rw [if_neg (by decide), if_pos rfl, strMk_data]
        | cons u t2 =>
          rw [show serMembers ((k, v) :: u :: t2) ++ '\x7d' :: rest =
              '"' :: (escChars k.data ++ '"' :: (':' :: (serVal v ++
                ',' :: (serMembers (u :: t2) ++ '\x7d' :: rest)))) by
            simp [serMembers]]
          rw [skipWs_cons _ _ (by decide)]
          dsimp only
          rw [if_pos rfl, parseStrChars_esc _ _ hcl.1.1]
          dsimp only
          rw [skipWs_cons _ _ (by decide)]
          dsimp only
          rw [if_pos rfl]
          rw [ihV v _ (by omega) hcl.1.2]
          dsimp only
          rw [skipWs_cons _ _ (by decide)]
          dsimp only
          rw [if_pos rfl]
          rw [ihM (u :: t2) rest (by simp) (by simp only [szM] at hsz ⊢; omega) hcl.2]

theorem sz_le_ser (n : Nat) :
    (∀ j, szV j ≤ n → szV j ≤ (serVal j).length) ∧
    (∀ l, szL l ≤ n → szL l ≤ (serElems l).length + 1) ∧
    (∀ m, szM m ≤ n → szM m ≤ (serMembers m).length + 1) := by
  induction n with
  | zero =>
    refine ⟨?_, ?_, ?_⟩
    · intro j h
      cases j <;> simp [szV] at h
    · intro l h
      cases l with
      | nil => simp [szL]
      | cons v t => simp [szL] at h
    · intro m h
      cases m with
      | nil => simp [szM]
      | cons kv t =>
        obtain ⟨k, v⟩ := kv
        simp [szM] at h
  | succ n ih =>
    obtain ⟨ihV, ihE, ihM⟩ := ih
    refine ⟨?_, ?_, ?_⟩
    · intro j h
      cases j with
      | str s => simp [szV, serVal]
      | bool b => cases b <;> simp [szV, serVal]
      | null => simp [szV, serVal]
      | arr l =>
        simp only [szV] at h ⊢
        have := ihE l (by omega)
        simp only [serVal, List.length_cons, List.length_append]
        omega
      | obj m =>
        simp only [szV] at h ⊢
        have := ihM m (by omega)
        simp only [serVal, List.length_cons, List.length_append]
        omega
    · intro l h
      cases l with
      | nil => simp [szL]
      | cons v t =>
        simp only [szL] at h ⊢
        have h1 := ihV v (by omega)
        have h2 := ihE t (by omega)
        cases t with
        | nil =>
          simp only [szL] at h2 ⊢
          simp only [serElems]
          omega
        | cons u t2 =>
          simp only [serElems, List.length_append, List.length_cons]
          omega
    · intro m h
      cases m with
      | nil => simp [szM]
      | cons kv t =>
        obtain ⟨k, v⟩ := kv
        simp only [szM] at h ⊢
        have h1 := ihV v (by omega)
        have h2 := ihM t (by omega)
        cases t with
        | nil =>
          simp only [szM] at h2 ⊢
          simp only [serMembers, List.length_append, List.length_cons]
          omega
        | cons u t2 =>
          simp only [serMembers, List.length_append, List.length_cons]
          omega

theorem parseJson_serVal (j : Json) (hclean : cleanV j = true) :
    parseJson (serVal j) = some j := by
  unfold parseJson
  have hsz : szV j ≤ (serVal j).length := (sz_le_ser (szV j)).1 j (Nat.le_refl _)
  have hrt := (parse_ser ((serVal j).length + 1)).1 j [] (by omega) hclean
  rw [List.append_nil] at hrt
  rw [hrt]
  rfl

theorem decodeReply_wrapped (p q : List Char) (kvs : List (String × Json))
    (hp : '\x7b' ∉ p) (hq : '\x7d' ∉ q) (hclean : cleanV (Json.obj kvs) = true) :
    decodeReply (String.mk (p ++ serVal (Json.obj kvs) ++ q)) =
      match recipeOfJson (Json.obj kvs) with
      | some r => .ok r
      | none => .error .recipeFields := by
  unfold decodeReply
  have hdata : (String.mk (p ++ serVal (Json.obj kvs) ++ q)).data =
      p ++ serVal (Json.obj kvs) ++ q := rfl
  rw [hdata]
  have hser : serVal (Json.obj kvs) = '\x7b' :: serMembers kvs ++ ['\x7d'] := by
    simp [serVal]
  rw [hser]
  rw [extract_wrapped p (serMembers kvs) q hp hq]
  rw [← hser]
  dsimp only
  rw [parseJson_serVal _ hclean]
  dsimp only
  cases recipeOfJson (Json.obj kvs) <;> rfl

/-! ### Shared objects and inversion lemmas for the claims -/

/-- A JSON object carrying exactly the nine required recipe fields, in
declaration order. -/
def nineFieldObj (t ct d ing ins nut fp gt ps : Json) : Json :=
  Json.obj [("title", t), ("cooking_time", ct), ("difficulty", d), ("ingredients", ing),
    ("instructions", ins), ("nutrition", nut), ("flavor_profile", fp), ("garnish_tips", gt),
    ("pairing_suggestions", ps)]

theorem recipeOfJson_nineFieldObj (t ct d ing ins nut fp gt ps : Json) :
    recipeOfJson (nineFieldObj t ct d ing ins nut fp gt ps) =
      some ⟨t, ct, d, ing, ins, nut, fp, gt, ps⟩ := rfl

theorem hasExact_iff (kvs : List (String × Json)) :
    hasExactRequiredKeys kvs = true ↔
      ((∀ f ∈ requiredFields, ∃ kv ∈ kvs, kv.1 = f) ∧ ∀ kv ∈ kvs, kv.1 ∈ requiredFields) := by
  unfold hasExactRequiredKeys
  rw [Bool.and_eq_true, List.all_eq_true, List.all_eq_true]
  constructor
  · intro ⟨h1, h2⟩
    constructor
    · intro f hf
      obtain ⟨kv, hkv, he⟩ := List.any_eq_true.mp (h1 f hf)
      exact ⟨kv, hkv, by simpa using he⟩
    · intro kv hkv
      simpa using h2 kv hkv
  · intro ⟨h1, h2⟩
    constructor
    · intro f hf
      obtain ⟨kv, hkv, he⟩ := h1 f hf
      exact List.any_eq_true.mpr ⟨kv, hkv, by simpa using he⟩
    · intro kv hkv
      simpa using h2 kv hkv

theorem recipeOfJson_obj_inv (kvs : List (String × Json)) (r : Recipe)
    (h : recipeOfJson (Json.obj kvs) = some r) :
    hasExactRequiredKeys kvs = true ∧
      r = ⟨lookupLast kvs "title", lookupLast kvs "cooking_time", lookupLast kvs "difficulty",
        lookupLast kvs "ingredients", lookupLast kvs "instructions", lookupLast kvs "nutrition",
        lookupLast kvs "flavor_profile", lookupLast kvs "garnish_tips",
        lookupLast kvs "pairing_suggestions"⟩ := by
  unfold recipeOfJson at h
  dsimp only at h
  by_cases hk : hasExactRequiredKeys kvs
  · rw [if_pos hk] at h
    exact ⟨hk, (Option.some.inj h).symm⟩
  · rw [if_neg hk] at h
    cases h

theorem recipeOfJson_missing_field (kvs : List (String × Json)) (f : String)
    (hf : f ∈ requiredFields) (hnf : f ∉ kvs.map Prod.fst) :
    recipeOfJson (Json.obj kvs) = none := by
  unfold recipeOfJson
  dsimp only
  rw [if_neg]
  intro hk
  obtain ⟨hall, _⟩ := (hasExact_iff kvs).1 hk
  obtain ⟨kv, hkv, he⟩ := hall f hf
  exact hnf (he ▸ List.mem_map_of_mem Prod.fst hkv)

theorem recipeOfJson_extra_field (kvs : List (String × Json)) (g : String)
    (hg : g ∈ kvs.map Prod.fst) (hng : g ∉ requiredFields) :
    recipeOfJson (Json.obj kvs) = none := by
  unfold recipeOfJson
  dsimp only
  rw [if_neg]
  intro hk
  obtain ⟨-, hsub⟩ := (hasExact_iff kvs).1 hk
  obtain ⟨kv, hkv, he⟩ := List.mem_map.mp hg
  exact hng (he ▸ hsub kv hkv)

theorem decodeReply_ok_inv (reply : String) (r : Recipe) (h : decodeReply reply = .ok r) :
    ∃ kvs, recipeOfJson (Json.obj kvs) = some r := by
  unfold decodeReply at h
  cases hex : extractPayload (pyStrip reply.data) with
  | none => rw [hex] at h; cases h
  | some payload =>
    rw [hex] at h
    dsimp only at h
    cases hpj : parseJson payload with
    | none => rw [hpj] at h; cases h
    | some j =>
      rw [hpj] at h
      dsimp only at h
      cases hrj : recipeOfJson j with
      | none => rw [hrj] at h; cases h
      | some r2 =>
        rw [hrj] at h
        dsimp only at h
        cases j with
        | obj kvs => exact ⟨kvs, by rw [hrj, Except.ok.inj h]⟩
        | str s => cases hrj
        | bool b => cases hrj
        | null => cases hrj
        | arr l => cases hrj

theorem firstIdx_eq_none (c : Char) (l : List Char) (h : c ∉ l) : firstIdx c l = none := by
  induction l with
  | nil => rfl
  | cons a t ih =>
    have ha : a ≠ c := fun he => h (by simp [he])
    have ht : c ∉ t := fun hm => h (List.mem_cons_of_mem _ hm)
    simp [firstIdx, ha, ih ht]

theorem firstIdx_isSome (c : Char) (l : List Char) (h : c ∈ l) :
    ∃ i, firstIdx c l = some i := by
  induction l with
  | nil => cases h
  | cons a t ih =>
    by_cases ha : a = c
    · exact ⟨0, by simp [firstIdx, ha]⟩
    · obtain ⟨i, hi⟩ := ih (by
        rcases List.mem_cons.mp h with he | hm
        · exact absurd he.symm ha
        · exact hm)
      exact ⟨i + 1, by simp [firstIdx, ha, hi]⟩

theorem mem_dropWhile_of_not {f : Char → Bool} {c : Char} {l : List Char}
    (hm : c ∈ l) (hc : f c = false) : c ∈ l.dropWhile f := by
  induction l with
  | nil => cases hm
  | cons a t ih =>
    by_cases ha : f a
    · rw [List.dropWhile_cons_of_pos ha]
      rcases List.mem_cons.mp hm with he | hmt
      · subst he
        rw [hc] at ha
        cases ha
      · exact ih hmt
    · rw [List.dropWhile_cons_of_neg ha]
      exact hm

theorem mem_pyStrip {c : Char} {l : List Char} (hm : c ∈ l) (hc : isPySpace c = false) :
    c ∈ pyStrip l := by
  unfold pyStrip
  rw [List.mem_reverse]
  apply mem_dropWhile_of_not _ hc
  rw [List.mem_reverse]
  exact mem_dropWhile_of_not hm hc

theorem not_mem_pyStrip {c : Char} {l : List Char} (hm : c ∉ l) : c ∉ pyStrip l := by
  intro hmem
  apply hm
  unfold pyStrip at hmem
  rw [List.mem_reverse] at hmem
  have h1 := mem_of_mem_dropWhileChar hmem
  rw [List.mem_reverse] at h1
  exact mem_of_mem_dropWhileChar h1

theorem pyRfind_succ_ne_neg_one (c : Char) (l : List Char) : pyRfind c l + 1 ≠ -1 := by
  unfold pyRfind
  cases firstIdx c l.reverse with
  | none => dsimp only; omega
  | some i => dsimp only; omega

theorem decode_noValidJson_iff (reply : String) :
    decodeReply reply = .error .noValidJson ↔ '\x7b' ∉ reply.data := by
  constructor
  · intro h
    intro hmem
    have hmem2 : '\x7b' ∈ pyStrip reply.data := mem_pyStrip hmem (by decide)
    obtain ⟨i, hi⟩ := firstIdx_isSome _ _ hmem2
    unfold decodeReply extractPayload at h
    rw [show pyFind '\x7b' (pyStrip reply.data) = (i : Int) by unfold pyFind; rw [hi]] at h
    rw [if_pos ⟨by omega, pyRfind_succ_ne_neg_one _ _⟩] at h
    dsimp only at h
    cases hpj : parseJson (pySlice (pyStrip reply.data) i (pyRfind '\x7d' (pyStrip reply.data) + 1)) with
    | none => rw [hpj] at h; cases h
    | some j =>
      rw [hpj] at h
      dsimp only at h
      cases hrj : recipeOfJson j with
      | none => rw [hrj] at h; cases h
      | some r => rw [hrj] at h; cases h
  · intro hmem
    have hmem2 : '\x7b' ∉ pyStrip reply.data := not_mem_pyStrip hmem
    unfold decodeReply extractPayload
    rw [show pyFind '\x7b' (pyStrip reply.data) = -1 by
      unfold pyFind
      rw [firstIdx_eq_none _ _ hmem2]]
    rw [if_neg (by intro ⟨h1, _⟩; exact h1 rfl)]

theorem decode_open_without_close (reply : String) (hopen : '\x7b' ∈ reply.data)
    (hclose : '\x7d' ∉ reply.data) : decodeReply reply = .error .jsonDecode := by
  have hmem2 : '\x7b' ∈ pyStrip reply.data := mem_pyStrip hopen (by decide)
  have hcl2 : '\x7d' ∉ pyStrip reply.data := not_mem_pyStrip hclose
  obtain ⟨i, hi⟩ := firstIdx_isSome _ _ hmem2
  unfold decodeReply extractPayload
  rw [show pyFind '\x7b' (pyStrip reply.data) = (i : Int) by unfold pyFind; rw [hi]]
  rw [show pyRfind '\x7d' (pyStrip reply.data) = -1 by
    unfold pyRfind
    rw [firstIdx_eq_none _ _ (by simpa using hcl2)]]
  rw [if_pos ⟨by omega, by omega⟩]
  dsimp only
  rw [show pySlice (pyStrip reply.data) i (-1 + 1) = [] by
    unfold pySlice
    simp]
  rfl


/-! ### Concrete objects used by witnesses and counterexamples -/

/-- The spec's worked example payload. -/
def payloadA : Json := nineFieldObj (.str "Paneer Tikka") (.str "30 minutes") (.str "Beginner")
  (.arr [.str "Paneer", .str "Tomatoes"]) (.arr [.str "Marinate", .str "Grill"])
  (.obj [("calories", .str "250 kcal"), ("protein", .str "12g"), ("carbs", .str "10g"),
    ("fat", .str "8g")])
  (.str "Mild") (.str "Mint") (.str "Rice")

/-- The Recipe the spec's worked example decodes to. -/
def recipeA : Recipe :=
  ⟨.str "Paneer Tikka", .str "30 minutes", .str "Beginner",
    .arr [.str "Paneer", .str "Tomatoes"], .arr [.str "Marinate", .str "Grill"],
    .obj [("calories", .str "250 kcal"), ("protein", .str "12g"), ("carbs", .str "10g"),
      ("fat", .str "8g")],
    .str "Mild", .str "Mint", .str "Rice"⟩

/-- A reply wrapping the example payload in prose that itself contains
braces on both sides. -/
def replyBracedProse : String :=
  String.mk ("\x7bnote ".data ++ serVal payloadA ++ " note\x7d".data)

/-- A nine-field payload whose nutrition value is an empty mapping and hence
not type-correct in the sense of the spec. -/
def payloadB : Json := nineFieldObj (.str "a") (.str "b") (.str "c") (.arr [.str "d"])
  (.arr [.str "e"]) (.obj []) (.str "f") (.str "g") (.str "h")

/-- The Recipe the code constructs from payloadB. -/
def recipeB : Recipe :=
  ⟨.str "a", .str "b", .str "c", .arr [.str "d"], .arr [.str "e"], .obj [],
    .str "f", .str "g", .str "h"⟩

/-- Spec-side checker (follows the spec's words, not the code): the value is a
JSON string. -/
def isStrVal : Json → Bool
  | .str _ => true
  | _ => false

/-- Spec-side checker (follows the spec's words, not the code): the value is a
list of strings. -/
def isStrListVal : Json → Bool
  | .arr l => l.all isStrVal
  | _ => false

/-- Spec-side checker (follows the spec's words, not the code): the value is a
mapping with the keys calories/protein/carbs/fat. -/
def isNutritionMapVal : Json → Bool
  | .obj kvs => ["calories", "protein", "carbs", "fat"].all
      (fun k => kvs.any (fun kv => kv.1 == k))
  | _ => false

/-- Spec-side type-correctness of a Recipe, as claim C2 words it: strings for
the string fields, lists of strings for ingredients and instructions, a
mapping with the four macro keys for nutrition. -/
def specTypeCorrect (r : Recipe) : Bool :=
  isStrVal r.title && isStrVal r.cooking_time && isStrVal r.difficulty &&
  isStrListVal r.ingredients && isStrListVal r.instructions &&
  isNutritionMapVal r.nutrition && isStrVal r.flavor_profile &&
  isStrVal r.garnish_tips && isStrVal r.pairing_suggestions

/-! ### Claims -/

set_option maxRecDepth 200000 in
/-- C1 counterexample: the claim quantifies over arbitrary prose, but when the
leading prose contains a brace (here both sides do), the first-brace /
last-brace slice does not recover the payload, json.loads fails on the
slice, and no Recipe is produced — contradicting the claimed extraction and
decode for this well-formed nine-field payload. -/
theorem c1_counterexample :
    extractPayload (pyStrip replyBracedProse.data) ≠ some (serVal payloadA) ∧
    decodeReply replyBracedProse = .error .jsonDecode := by
  constructor
  · decide
  · rfl

/-- C1 (amended): for every reply consisting of a well-formed nine-field JSON
payload (canonical serialization of an object with exactly the nine required
fields, no raw control characters) preceded by prose containing no opening
brace and followed by prose containing no closing brace, the extraction step
recovers exactly the payload text and the generation call decodes it into the
Recipe holding exactly the payload's field values. -/
theorem c1_wrapped_payload_decodes (p q : List Char) (t ct d ing ins nut fp gt ps : Json)
    (hp : '\x7b' ∉ p) (hq : '\x7d' ∉ q)
    (hclean : cleanV (nineFieldObj t ct d ing ins nut fp gt ps) = true) :
    extractPayload (pyStrip (p ++ serVal (nineFieldObj t ct d ing ins nut fp gt ps) ++ q)) =
      some (serVal (nineFieldObj t ct d ing ins nut fp gt ps)) ∧
    decodeReply (String.mk (p ++ serVal (nineFieldObj t ct d ing ins nut fp gt ps) ++ q)) =
      .ok ⟨t, ct, d, ing, ins, nut, fp, gt, ps⟩ := by
  constructor
  · rw [show serVal (nineFieldObj t ct d ing ins nut fp gt ps) =
        '\x7b' :: serMembers [("title", t), ("cooking_time", ct), ("difficulty", d),
          ("ingredients", ing), ("instructions", ins), ("nutrition", nut),
          ("flavor_profile", fp), ("garnish_tips", gt), ("pairing_suggestions", ps)] ++
          ['\x7d'] by simp [nineFieldObj, serVal]]
    exact extract_wrapped _ _ _ hp hq
  · rw [show nineFieldObj t ct d ing ins nut fp gt ps =
        Json.obj [("title", t), ("cooking_time", ct), ("difficulty", d),
          ("ingredients", ing), ("instructions", ins), ("nutrition", nut),
          ("flavor_profile", fp), ("garnish_tips", gt), ("pairing_suggestions", ps)] from rfl]
      at hclean ⊢
    rw [decodeReply_wrapped p q _ hp hq hclean]
    rw [show recipeOfJson (Json.obj [("title", t), ("cooking_time", ct), ("difficulty", d),
        ("ingredients", ing), ("instructions", ins), ("nutrition", nut),
        ("flavor_profile", fp), ("garnish_tips", gt), ("pairing_suggestions", ps)]) =
        some ⟨t, ct, d, ing, ins, nut, fp, gt, ps⟩ from
      recipeOfJson_nineFieldObj t ct d ing ins nut fp gt ps]

/-- C1 witness: the amended theorem applied to the spec's worked example —
prose-wrapped payloadA decodes to the expected Recipe. -/
theorem c1_witness :
    ('\x7b' ∉ "Here you go:\n".data ∧ '\x7d' ∉ "\nEnjoy!".data ∧ cleanV payloadA = true) ∧
    decodeReply (String.mk ("Here you go:\n".data ++ serVal payloadA ++ "\nEnjoy!".data)) =
      .ok recipeA :=
  ⟨⟨by decide, by decide, by decide⟩,
    (c1_wrapped_payload_decodes "Here you go:\n".data "\nEnjoy!".data
      (.str "Paneer Tikka") (.str "30 minutes") (.str "Beginner")
      (.arr [.str "Paneer", .str "Tomatoes"]) (.arr [.str "Marinate", .str "Grill"])
      (.obj [("calories", .str "250 kcal"), ("protein", .str "12g"), ("carbs", .str "10g"),
        ("fat", .str "8g")])
      (.str "Mild") (.str "Mint") (.str "Rice")
      (by decide) (by decide) (by decide)).2⟩

set_option maxRecDepth 200000 in
/-- C2 counterexample: a payload with all nine keys but an empty nutrition
mapping decodes into a constructed Recipe even though the record is not
type-correct in the spec's sense — the dataclass performs no value
validation. -/
theorem c2_counterexample :
    decodeReply (String.mk (serVal payloadB)) = .ok recipeB ∧
    specTypeCorrect recipeB = false := by
  constructor
  · rfl
  · rfl

/-- C2 (amended): every Recipe the generation call constructs comes from a
decoded payload object whose key set is exactly the nine required fields,
and each field is bound to the payload's value for that key; the values
themselves are not type-checked. -/
theorem c2_fields_exact_untyped (reply : String) (r : Recipe)
    (h : decodeReply reply = .ok r) :
    ∃ kvs, recipeOfJson (Json.obj kvs) = some r ∧ hasExactRequiredKeys kvs = true ∧
      (∀ f ∈ requiredFields, ∃ kv ∈ kvs, kv.1 = f) ∧
      (∀ kv ∈ kvs, kv.1 ∈ requiredFields) ∧
      r.title = lookupLast kvs "title" ∧
      r.cooking_time = lookupLast kvs "cooking_time" ∧
      r.difficulty = lookupLast kvs "difficulty" ∧
      r.ingredients = lookupLast kvs "ingredients" ∧
      r.instructions = lookupLast kvs "instructions" ∧
      r.nutrition = lookupLast kvs "nutrition" ∧
      r.flavor_profile = lookupLast kvs "flavor_profile" ∧
      r.garnish_tips = lookupLast kvs "garnish_tips" ∧
      r.pairing_suggestions = lookupLast kvs "pairing_suggestions" := by
  obtain ⟨kvs, hkvs⟩ := decodeReply_ok_inv reply r h
  obtain ⟨hk, hr⟩ := recipeOfJson_obj_inv kvs r hkvs
  obtain ⟨hall, hsub⟩ := (hasExact_iff kvs).1 hk
  subst hr
  exact ⟨kvs, hkvs, hk, hall, hsub, rfl, rfl, rfl, rfl, rfl, rfl, rfl, rfl, rfl⟩

set_option maxRecDepth 200000 in
/-- C2 witness: the amended theorem applied to the bare payloadA reply. -/
theorem c2_witness :
    decodeReply (String.mk (serVal payloadA)) = .ok recipeA ∧
    (∃ kvs, recipeOfJson (Json.obj kvs) = some recipeA ∧ hasExactRequiredKeys kvs = true ∧
      (∀ f ∈ requiredFields, ∃ kv ∈ kvs, kv.1 = f) ∧
      (∀ kv ∈ kvs, kv.1 ∈ requiredFields) ∧
      recipeA.title = lookupLast kvs "title" ∧
      recipeA.cooking_time = lookupLast kvs "cooking_time" ∧
      recipeA.difficulty = lookupLast kvs "difficulty" ∧
      recipeA.ingredients = lookupLast kvs "ingredients" ∧
      recipeA.instructions = lookupLast kvs "instructions" ∧
      recipeA.nutrition = lookupLast kvs "nutrition" ∧
      recipeA.flavor_profile = lookupLast kvs "flavor_profile" ∧
      recipeA.garnish_tips = lookupLast kvs "garnish_tips" ∧
      recipeA.pairing_suggestions = lookupLast kvs "pairing_suggestions") :=
  ⟨rfl, c2_fields_exact_untyped (String.mk (serVal payloadA)) recipeA rfl⟩

/-- C3: for every reply containing neither an opening nor a closing brace, the
generation call takes the explicit shape-decode failure (the ValueError branch
whose message is the no-valid-JSON error), and no Recipe is constructed or
returned. -/
theorem c3_no_brace_pair_fails (reply : String)
    (hopen : '\x7b' ∉ reply.data) (hclose : '\x7d' ∉ reply.data) :
    decodeReply reply = .error .noValidJson ∧ getRecipeFromAi (.ok reply) = none := by
  have h := (decode_noValidJson_iff reply).2 hopen
  refine ⟨h, ?_⟩
  unfold getRecipeFromAi
  dsimp only
  rw [h]

/-- C3 witness: a plain prose reply with no braces fails with the
no-valid-JSON error. -/
theorem c3_witness :
    ('\x7b' ∉ "plain prose with no braces".data ∧ '\x7d' ∉ "plain prose with no braces".data) ∧
    decodeReply "plain prose with no braces" = .error .noValidJson ∧
    getRecipeFromAi (.ok "plain prose with no braces") = none :=
  ⟨⟨by decide, by decide⟩,
    c3_no_brace_pair_fails "plain prose with no braces" (by decide) (by decide)⟩

/-- C4: when the extracted substring fails to parse as JSON the call fails with
the JSON-decode error, and when it parses to an object missing at least one of
the nine required fields the call fails with the keyword error of the Recipe
constructor; in both cases no Recipe is returned — never a partial or
best-effort one. -/
theorem c4_parse_or_missing_field_fails (reply : String) (p : List Char)
    (hex : extractPayload (pyStrip reply.data) = some p) :
    (parseJson p = none →
      decodeReply reply = .error .jsonDecode ∧ getRecipeFromAi (.ok reply) = none) ∧
    (∀ kvs f, parseJson p = some (.obj kvs) → f ∈ requiredFields →
      f ∉ kvs.map Prod.fst →
      decodeReply reply = .error .recipeFields ∧ getRecipeFromAi (.ok reply) = none) := by
  constructor
  · intro hpj
    have hd : decodeReply reply = .error .jsonDecode := by
      unfold decodeReply
      rw [hex]
      dsimp only
      rw [hpj]
    refine ⟨hd, ?_⟩
    unfold getRecipeFromAi
    dsimp only
    rw [hd]
  · intro kvs f hpj hf hnf
    have hd : decodeReply reply = .error .recipeFields := by
      unfold decodeReply
      rw [hex]
      dsimp only
      rw [hpj]
      dsimp only
      rw [recipeOfJson_missing_field kvs f hf hnf]
    refine ⟨hd, ?_⟩
    unfold getRecipeFromAi
    dsimp only
    rw [hd]

set_option maxRecDepth 200000 in
/-- C4 witness: a reply whose braced slice is not JSON fails with the decode
error, and a reply whose object payload lacks the other eight fields fails at
Recipe construction; neither returns a Recipe. -/
theorem c4_witness :
    (extractPayload (pyStrip "see \x7bnot json\x7d here".data) = some "\x7bnot json\x7d".data ∧
      parseJson "\x7bnot json\x7d".data = none ∧
      decodeReply "see \x7bnot json\x7d here" = .error .jsonDecode ∧
      getRecipeFromAi (.ok "see \x7bnot json\x7d here") = none) ∧
    (extractPayload (pyStrip (String.mk (serVal (Json.obj [("title", Json.str "a")]))).data) =
        some (serVal (Json.obj [("title", Json.str "a")])) ∧
      parseJson (serVal (Json.obj [("title", Json.str "a")])) =
        some (Json.obj [("title", Json.str "a")]) ∧
      "cooking_time" ∈ requiredFields ∧
      "cooking_time" ∉ ([("title", Json.str "a")].map Prod.fst) ∧
      decodeReply (String.mk (serVal (Json.obj [("title", Json.str "a")]))) =
        .error .recipeFields ∧
      getRecipeFromAi (.ok (String.mk (serVal (Json.obj [("title", Json.str "a")])))) = none) := by
  constructor
  · refine ⟨by rfl, by rfl, ?_⟩
    exact (c4_parse_or_missing_field_fails "see \x7bnot json\x7d here" "\x7bnot json\x7d".data
      (by rfl)).1 (by rfl)
  · refine ⟨by rfl, by rfl, by decide, by decide, ?_⟩
    exact (c4_parse_or_missing_field_fails (String.mk (serVal (Json.obj [("title", Json.str "a")])))
      (serVal (Json.obj [("title", Json.str "a")])) (by rfl)).2
      [("title", Json.str "a")] "cooking_time" (by rfl) (by decide) (by decide)

/-- C9: the explicit no-valid-JSON branch is taken exactly when the reply has
no opening brace at all; the computed end index rfind-plus-one is never -1;
and a reply with an opening brace but no closing brace passes the guard and
fails instead at JSON-parsing the truncated (empty) slice — in all such cases
no Recipe is returned. -/
theorem c9_guard_asymmetry :
    (∀ reply : String, decodeReply reply = .error .noValidJson ↔ '\x7b' ∉ reply.data) ∧
    (∀ l : List Char, pyRfind '\x7d' l + 1 ≠ -1) ∧
    (∀ reply : String, '\x7b' ∈ reply.data → '\x7d' ∉ reply.data →
      decodeReply reply = .error .jsonDecode ∧ getRecipeFromAi (.ok reply) = none) := by
  refine ⟨decode_noValidJson_iff, pyRfind_succ_ne_neg_one '\x7d', ?_⟩
  intro reply hopen hclose
  have hd := decode_open_without_close reply hopen hclose
  refine ⟨hd, ?_⟩
  unfold getRecipeFromAi
  dsimp only
  rw [hd]

/-- C9 witness: on a reply with an opening brace and no closing brace the
guard passes and the failure is the JSON-decode error, not the no-valid-JSON
branch. -/
theorem c9_witness :
    ('\x7b' ∈ "left \x7b only".data ∧ '\x7d' ∉ "left \x7b only".data) ∧
    decodeReply "left \x7b only" = .error .jsonDecode ∧
    getRecipeFromAi (.ok "left \x7b only") = none ∧
    ¬ ('\x7b' ∉ "left \x7b only".data) :=
  ⟨⟨by decide, by decide⟩,
    (c9_guard_asymmetry.2.2 "left \x7b only" (by decide) (by decide)).1,
    (c9_guard_asymmetry.2.2 "left \x7b only" (by decide) (by decide)).2,
    fun h => h (by decide)⟩

/-- C10: a decoded payload object containing all nine required fields plus at
least one unexpected key makes Recipe construction reject the unknown keyword:
the call fails with the construction error and returns no Recipe. -/
theorem c10_extra_key_fails (reply : String) (p : List Char) (kvs : List (String × Json))
    (g : String) (hex : extractPayload (pyStrip reply.data) = some p)
    (hpj : parseJson p = some (.obj kvs))
    (hall : ∀ f ∈ requiredFields, f ∈ kvs.map Prod.fst)
    (hg : g ∈ kvs.map Prod.fst) (hng : g ∉ requiredFields) :
    decodeReply reply = .error .recipeFields ∧ getRecipeFromAi (.ok reply) = none := by
  have hd : decodeReply reply = .error .recipeFields := by
    unfold decodeReply
    rw [hex]
    dsimp only
    rw [hpj]
    dsimp only
    rw [recipeOfJson_extra_field kvs g hg hng]
  refine ⟨hd, ?_⟩
  unfold getRecipeFromAi
  dsimp only
  rw [hd]

set_option maxRecDepth 400000 in
/-- C10 witness: a payload with the nine required keys plus an extra key fails
at Recipe construction and returns no Recipe. -/
theorem c10_witness :
    (extractPayload (pyStrip (String.mk (serVal (Json.obj (
        [("title", Json.str "a"), ("cooking_time", Json.str "b"), ("difficulty", Json.str "c"),
         ("ingredients", Json.arr [Json.str "d"]), ("instructions", Json.arr [Json.str "e"]),
         ("nutrition", Json.obj []), ("flavor_profile", Json.str "f"),
         ("garnish_tips", Json.str "g"), ("pairing_suggestions", Json.str "h"),
         ("extra", Json.str "x")])))).data) =
      some (serVal (Json.obj (
        [("title", Json.str "a"), ("cooking_time", Json.str "b"), ("difficulty", Json.str "c"),
         ("ingredients", Json.arr [Json.str "d"]), ("instructions", Json.arr [Json.str "e"]),
         ("nutrition", Json.obj []), ("flavor_profile", Json.str "f"),
         ("garnish_tips", Json.str "g"), ("pairing_suggestions", Json.str "h"),
         ("extra", Json.str "x")])))) ∧
    decodeReply (String.mk (serVal (Json.obj (
        [("title", Json.str "a"), ("cooking_time", Json.str "b"), ("difficulty", Json.str "c"),
         ("ingredients", Json.arr [Json.str "d"]), ("instructions", Json.arr [Json.str "e"]),
         ("nutrition", Json.obj []), ("flavor_profile", Json.str "f"),
         ("garnish_tips", Json.str "g"), ("pairing_suggestions", Json.str "h"),
         ("extra", Json.str "x")])))) = .error .recipeFields := by
  refine ⟨by rfl, ?_⟩
  exact (c10_extra_key_fails _ _
    [("title", Json.str "a"), ("cooking_time", Json.str "b"), ("difficulty", Json.str "c"),
     ("ingredients", Json.arr [Json.str "d"]), ("instructions", Json.arr [Json.str "e"]),
     ("nutrition", Json.obj []), ("flavor_profile", Json.str "f"),
     ("garnish_tips", Json.str "g"), ("pairing_suggestions", Json.str "h"),
     ("extra", Json.str "x")]
    "extra" (by rfl) (by rfl) (by decide) (by decide) (by decide)).1

/-- A plain substring relation on strings, used to state what the assistant
system instruction contains. -/
def SubstrOf (s t : String) : Prop :=
  ∃ a b : List Char, t.data = a ++ (s.data ++ b)

theorem substrOf_mem {s t : String} (h : SubstrOf s t) {c : Char} (hc : c ∈ s.data) :
    c ∈ t.data := by
  obtain ⟨a, b, hab⟩ := h
  rw [hab]
  simp [hc]

/-- The recipe used by the C5 counterexample: its own cooking_time and
difficulty strings use marker characters that occur nowhere in the built
instruction. -/
def recipeC5 : Recipe :=
  ⟨.str "T", .str "ZQZ", .str "QWQ", .arr [.str "I", .str "J"], .arr [], .obj [],
    .str "x", .str "y", .str "v"⟩

set_option maxRecDepth 400000 in
/-- C5 counterexample: the system instruction interpolates the cooking-time
and difficulty facets passed to the call, not the held recipe's own
cooking_time and difficulty fields — for a recipe whose fields are the marker
strings ZQZ and QWQ and facets 30 / Beginner, neither marker occurs in the
instruction, falsifying the claim that the recipe's cooking time and
difficulty appear as substrings. -/
theorem c5_counterexample :
    (buildAssistContext recipeC5 30 "Beginner").isSome = true ∧
    ¬ SubstrOf (pyStr recipeC5.cooking_time) ((buildAssistContext recipeC5 30 "Beginner").getD "") ∧
    ¬ SubstrOf (pyStr recipeC5.difficulty) ((buildAssistContext recipeC5 30 "Beginner").getD "") := by
  refine ⟨by rfl, ?_, ?_⟩
  · intro h
    have hz : 'Z' ∈ (pyStr recipeC5.cooking_time).data := by decide
    have := substrOf_mem h hz
    revert this
    decide
  · intro h
    have hq : 'Q' ∈ (pyStr recipeC5.difficulty).data := by decide
    have := substrOf_mem h hq
    revert this
    decide

/-- C5 (amended): for every recipe whose ingredients join without error and
all facets, the system instruction deterministically contains, as substrings,
the interpolated recipe title, the comma-joined ingredient list, the
cooking-time facet passed to the call, and the difficulty facet passed to the
call (each of which may differ from the recipe's own cooking_time and
difficulty fields). -/
theorem c5_context_contains (r : Recipe) (ct : Nat) (d : String) (items : List String)
    (hitems : seqToJoin r.ingredients = some items) :
    ∃ ctx, buildAssistContext r ct d = some ctx ∧
      SubstrOf (pyStr r.title) ctx ∧
      SubstrOf (String.intercalate ", " items) ctx ∧
      SubstrOf (toString ct) ctx ∧
      SubstrOf d ctx := by
  refine ⟨assistPart1 ++ pyStr r.title ++ assistPart2 ++ String.intercalate ", " items ++
    assistPart3 ++ toString ct ++ assistPart4 ++ d ++ assistPart5, ?_, ?_, ?_, ?_, ?_⟩
  · unfold buildAssistContext
    rw [hitems]
  · exact ⟨assistPart1.data,
      (assistPart2 ++ String.intercalate ", " items ++ assistPart3 ++ toString ct ++
        assistPart4 ++ d ++ assistPart5).data,
      by simp [String.data_append, List.append_assoc]⟩
  · exact ⟨(assistPart1 ++ pyStr r.title ++ assistPart2).data,
      (assistPart3 ++ toString ct ++ assistPart4 ++ d ++ assistPart5).data,
      by simp [String.data_append, List.append_assoc]⟩
  · exact ⟨(assistPart1 ++ pyStr r.title ++ assistPart2 ++
        String.intercalate ", " items ++ assistPart3).data,
      (assistPart4 ++ d ++ assistPart5).data,
      by simp [String.data_append, List.append_assoc]⟩
  · exact ⟨(assistPart1 ++ pyStr r.title ++ assistPart2 ++
        String.intercalate ", " items ++ assistPart3 ++ toString ct ++ assistPart4).data,
      assistPart5.data,
      by simp [String.data_append, List.append_assoc]⟩

/-- C5 witness: the amended theorem applied to the example recipe and the
facets 30 / Beginner. -/
theorem c5_witness :
    seqToJoin recipeA.ingredients = some ["Paneer", "Tomatoes"] ∧
    (∃ ctx, buildAssistContext recipeA 30 "Beginner" = some ctx ∧
      SubstrOf (pyStr recipeA.title) ctx ∧
      SubstrOf (String.intercalate ", " ["Paneer", "Tomatoes"]) ctx ∧
      SubstrOf (toString 30) ctx ∧
      SubstrOf "Beginner" ctx) :=
  ⟨by rfl, c5_context_contains recipeA 30 "Beginner" ["Paneer", "Tomatoes"] (by rfl)⟩

/-- C6: for every question, recipe (whose ingredient list joins), facets and
transport outcome, a raised transport or API error is caught and converted
into the apology text returned in place of an answer, and a successful call
returns the model's reply text stripped of leading and trailing whitespace;
in both cases a plain string is returned, never a propagated error. -/
theorem c6_assistant_degraded_mode (q : String) (r : Recipe) (c : String) (ct : Nat)
    (d : String) (outcome : Except String String) (items : List String)
    (hitems : seqToJoin r.ingredients = some items) :
    (∀ e, outcome = .error e →
      getCookingAssistance q r c ct d outcome = some (apologyPrefix ++ e)) ∧
    (∀ rep, outcome = .ok rep →
      getCookingAssistance q r c ct d outcome = some (String.mk (pyStrip rep.data))) := by
  have hb : buildAssistContext r ct d = some (assistPart1 ++ pyStr r.title ++ assistPart2 ++
      String.intercalate ", " items ++ assistPart3 ++ toString ct ++ assistPart4 ++ d ++
      assistPart5) := by
    unfold buildAssistContext
    rw [hitems]
  constructor
  · intro e he
    subst he
    unfold getCookingAssistance
    rw [hb]
  · intro rep hrep
    subst hrep
    unfold getCookingAssistance
    rw [hb]

/-- C6 witness: the theorem applied to the example recipe, once with a failing
transport and once with a successful reply carrying surrounding whitespace. -/
theorem c6_witness :
    seqToJoin recipeA.ingredients = some ["Paneer", "Tomatoes"] ∧
    getCookingAssistance "how long?" recipeA "Vegetarian" 30 "Beginner"
      (.error "connection reset") = some (apologyPrefix ++ "connection reset") ∧
    getCookingAssistance "how long?" recipeA "Vegetarian" 30 "Beginner"
      (.ok "  about ten minutes \n") = some (String.mk (pyStrip "  about ten minutes \n".data)) :=
  ⟨by rfl,
    (c6_assistant_degraded_mode "how long?" recipeA "Vegetarian" 30 "Beginner"
      (.error "connection reset") ["Paneer", "Tomatoes"] (by rfl)).1 "connection reset" rfl,
    (c6_assistant_degraded_mode "how long?" recipeA "Vegetarian" 30 "Beginner"
      (.ok "  about ten minutes \n") ["Paneer", "Tomatoes"] (by rfl)).2
      "  about ten minutes \n" rfl⟩

/-- C7: the assistant call never mutates the held Recipe: the recipe object
left after any number of repeated assistant calls against it is structurally
the recipe that was passed in. -/
theorem c7_recipe_never_mutated (c : String) (ct : Nat) (d : String) (r : Recipe)
    (turns : List (String × Except String String)) :
    runAssistantSession c ct d r turns = r ∧
    ∀ (q : String) (outcome : Except String String),
      (getCookingAssistanceS q r c ct d outcome).2 = r := by
  constructor
  · unfold runAssistantSession
    induction turns with
    | nil => rfl
    | cons turn ts ih => exact ih
  · intro q outcome
    rfl
